import Mathlib

/-!
Shallow embedding of the localization engine in `src/image_processor.py`
(class `ImageProcessor`) together with theorems checking the specification.

Modelling conventions:
* The scalar type of the Python floats is an abstract field `α` (instantiated
  at `ℝ` for analytic statements and at `ℚ` for executable witnesses).
* External library calls (OpenCV image ops, the ArUco detector, the PnP
  solver, the Rodrigues conversion, the trigonometric functions of `math`,
  and the socket send) are collected in a record `Ext` of oracle functions.
  Fallible external calls return `Except Unit _`; a `.error` value models a
  raised Python exception, which the source catches with `try/except`.
* The mutable object state of `ImageProcessor` is the record `State`; each
  method becomes a function `State → State` (threading the oracles).
* The TCP client socket is modelled by the flag `client_socket`
  (`hasattr(self, 'client_socket')` in the source); the serialized messages
  passed to `client_socket.send` are accumulated in the ghost field
  `sendAttempts` (values before string formatting).
* The filesystem seen by `get_next_output_filename` is modelled by the list
  of indices `N` for which `output/output<N>.csv` already exists.
-/

namespace JetbotCam

set_option linter.unusedVariables false
set_option linter.unusedSectionVars false
set_option linter.unnecessarySeqFocus false

variable {α : Type} [Field α] {Frame : Type}

/-- Entry of `self.marker_world_positions`: a 3-D center and a side length,
as stored by `__init__` (layout 1). -/
structure MarkerInfo (α : Type) where
  position : α × α × α
  size : α
deriving DecidableEq

/-- External capabilities used by `ImageProcessor`, as oracle functions.
`Except Unit _` results model Python exceptions raised by the call. -/
structure Ext (α : Type) (Frame : Type) where
  arucoAvailable : Bool
  acceptOk : Bool
  cvtGray : Frame → Except Unit Frame
  equalizeHist : Frame → Except Unit Frame
  detectMarkers : Frame → Except Unit (List (List (α × α)) × Option (List Nat) × Nat)
  drawDetected : Frame → List (List (α × α)) → List Nat → Except Unit Frame
  drawRejected : Frame → Nat → Except Unit Frame
  putText : Frame → String → Except Unit Frame
  solvePnPFn : List (α × α × α) → List (α × α) → Except Unit (Option ((α × α × α) × (α × α × α)))
  rodrigues : α × α × α → Except Unit (Fin 3 → Fin 3 → α)
  estimateSingle : List (α × α) → α → Except Unit ((α × α × α) × (α × α × α))
  drawAxes : Frame → (α × α × α) → (α × α × α) → Except Unit Frame
  atan2 : α → α → α
  degreesFn : α → α
  radiansFn : α → α
  cosFn : α → α
  sinFn : α → α
  sendOk : Nat → Bool

/-- Mutable state of an `ImageProcessor` object. -/
structure State (α : Type) (Frame : Type) where
  current_frame : Option Frame
  frames : List Frame
  num_frames : Nat
  annotated_frame : Option Frame
  headless : Bool
  corners : Option (List (List (α × α)))
  ids : Option (List Nat)
  last_valid_pos : α × α
  last_valid_angle : α
  marker_world_positions : List (Nat × MarkerInfo α)
  marker_size : α
  tcp : Bool
  client_socket : Bool
  pose_data : List (α × α × α)
  aruco_available : Bool
  sendAttempts : List (α × α × α)

/-- `SCREENHEIGHT = 750` (pixels). -/
def SCREENHEIGHT : α := 750

/-- `MAPWIDTH = 1.8` (meters). -/
def MAPWIDTH : α := 1.8

/-- `MAPHEIGHT = 1.5` (meters). -/
def MAPHEIGHT : α := 1.5

/-- `RATIO_MTS = SCREENHEIGHT/MAPHEIGHT`, the map-to-screen conversion ratio. -/
def RATIO_MTS : α := SCREENHEIGHT / MAPHEIGHT

/-- `page_offsets_y` from `__init__` (layout 1). -/
def pageOffsetsY : List α := [0, 0.252, 0.252, 0.251, 0.246]

/-- `marker_offsets` from `__init__` (layout 1). -/
def markerOffsets : List (α × α × α) :=
  [(0, 0, 0),
   (0, 0.098, 0),
   (0, -0.018, -0.116),
   (0, 0.0305, -0.116),
   (0, 0.0785, -0.116),
   (0, 0.1265, -0.116),
   (0, 0, -0.184),
   (0, 0.098, -0.184)]

/-- `start_coord` from `__init__` (layout 1). -/
def startCoord : α × α × α := (1.8, 1.5 - (0.035 + 0.037), 0.229)

/-- The `page_coords` loop of `__init__`: cumulative offsets down the y axis. -/
def pageCoords : List (α × α × α) :=
  (List.foldl
    (fun (acc : α × List (α × α × α)) off =>
      let c := acc.1 + off
      (c, acc.2 ++ [((startCoord : α × α × α).1, (startCoord : α × α × α).2.1 - c,
                     (startCoord : α × α × α).2.2)]))
    (0, []) (pageOffsetsY : List α)).2

/-- The `marker_world_positions` dictionary built by `__init__` for layout 1:
5 pages of 8 markers, keys `num = 8*i + j` assigned in loop order, corner
markers (j ∈ {0,1,6,7}) of size 0.076 and inner markers of size 0.026. -/
def markerWorldPositions : List (Nat × MarkerInfo α) :=
  ((pageCoords : List (α × α × α)).enum).flatMap (fun pc =>
    ((markerOffsets : List (α × α × α)).enum).map (fun mo =>
      (8 * pc.1 + mo.1,
       { position := (pc.2.1 + mo.2.1, pc.2.2.1 - mo.2.2.1, pc.2.2.2 + mo.2.2.2),
         size := if mo.1 = 0 ∨ mo.1 = 1 ∨ mo.1 = 6 ∨ mo.1 = 7 then 0.076 else 0.026 })))

/-- Dictionary membership / indexing `self.marker_world_positions[id]`. -/
def lookupMarker (m : List (Nat × MarkerInfo α)) (mid : Nat) : Option (MarkerInfo α) :=
  (m.find? (fun p => p.1 == mid)).map (fun p => p.2)

/-- State of a freshly constructed `ImageProcessor(headless=.., tcp=..)`. -/
def initState (ext : Ext α Frame) (headless tcp : Bool) : State α Frame where
  current_frame := none
  frames := []
  num_frames := 2
  annotated_frame := none
  headless := headless
  corners := none
  ids := none
  last_valid_pos := (0, 0)
  last_valid_angle := 0
  marker_world_positions := markerWorldPositions
  marker_size := 0.085
  tcp := tcp
  client_socket := tcp && ext.acceptOk
  pose_data := []
  aruco_available := ext.arucoAvailable
  sendAttempts := []

/-- `get_marker_corners_3d`: the 4 corners of a marker in world coordinates,
in the detector order top-left, top-right, bottom-right, bottom-left. -/
def get_marker_corners_3d (c : α × α × α) (markerSize : α) : List (α × α × α) :=
  let h := markerSize / 2
  [(c.1, c.2.1 + h, c.2.2 + h),
   (c.1, c.2.1 - h, c.2.2 + h),
   (c.1, c.2.1 - h, c.2.2 - h),
   (c.1, c.2.1 + h, c.2.2 - h)]

/-- `-R.T @ tvec`: the camera position in world coordinates. -/
def negRTt (R : Fin 3 → Fin 3 → α) (t : α × α × α) : α × α × α :=
  (-(R 0 0 * t.1 + R 1 0 * t.2.1 + R 2 0 * t.2.2),
   -(R 0 1 * t.1 + R 1 1 * t.2.1 + R 2 1 * t.2.2),
   -(R 0 2 * t.1 + R 1 2 * t.2.1 + R 2 2 * t.2.2))

/-- The accumulation loop of `get_camera_position_from_multiple_markers`:
for each detected id (with its index) whose id is a key of the marker map,
extend the object points with the marker's 3-D corners and the image points
with the corresponding detected 2-D corners; `corners[i]` out of range is an
`IndexError`. -/
def collectPnP (m : List (Nat × MarkerInfo α)) (cornersL : List (List (α × α))) :
    List Nat → Nat → Except Unit (List (α × α × α) × List (α × α))
  | [], _ => .ok ([], [])
  | mid :: rest, i =>
    match lookupMarker m mid with
    | some info =>
      match cornersL.get? i with
      | none => .error ()
      | some pts =>
        (collectPnP m cornersL rest (i + 1)).map
          (fun tl => (get_marker_corners_3d info.position info.size ++ tl.1, pts ++ tl.2))
    | none => collectPnP m cornersL rest (i + 1)

/-- `get_camera_position_from_multiple_markers`: multi-marker PnP.
Returns `.ok none` for the source's `None` results (no stored detections,
fewer than 4 correspondences, or solver reporting failure); `.error` models
an exception raised inside the method (propagating to the caller). -/
def get_camera_position_from_multiple_markers (ext : Ext α Frame) (s : State α Frame) :
    Except Unit (Option ((α × α × α) × (α × α × α) × (α × α × α))) :=
  match s.corners, s.ids with
  | some cs, some ids =>
    match collectPnP s.marker_world_positions cs ids 0 with
    | .error e => .error e
    | .ok (obj, img) =>
      if 4 ≤ obj.length then
        match ext.solvePnPFn obj img with
        | .error e => .error e
        | .ok (some (rvec, tvec)) =>
          match ext.rodrigues rvec with
          | .error e => .error e
          | .ok R => .ok (some (negRTt R tvec, rvec, tvec))
        | .ok none => .ok none
      else .ok none
  | _, _ => .ok none

/-- `get_camera_angle_from_rtvec`: convert the rotation vector with Rodrigues,
take `yaw = degrees(atan2(R[2,0], R[2,1]))` and return `-yaw + 90`. -/
def get_camera_angle_from_rtvec (ext : Ext α Frame) (rvec tvec : α × α × α) :
    Except Unit α :=
  match ext.rodrigues rvec with
  | .error e => .error e
  | .ok R => .ok (-(ext.degreesFn (ext.atan2 (R 2 0) (R 2 1))) + 90)

/-- The message triple built by `convert_and_send` (the values formatted into
the string `"{x:.3f},{y:.3f},{orientation:.3f}"`). -/
def sentMessage (ext : Ext α Frame) (s : State α Frame) : α × α × α :=
  let x := s.last_valid_pos.1 * RATIO_MTS
  let y := ((MAPHEIGHT : α) - s.last_valid_pos.2) * RATIO_MTS
  let ori := ext.radiansFn s.last_valid_angle
  (x - 50 * ext.cosFn ori, y + 50 * ext.sinFn ori, ori)

/-- `convert_and_send`: serialize the stored pose and send it; on any send
failure (caught by the method's own `except` or by the caller's wrapper) the
`client_socket` attribute is deleted. The attempted message is recorded in
the ghost log `sendAttempts`. -/
def convert_and_send (ext : Ext α Frame) (s : State α Frame) : State α Frame :=
  if ext.sendOk s.sendAttempts.length then
    { s with sendAttempts := s.sendAttempts ++ [sentMessage ext s] }
  else
    { s with sendAttempts := s.sendAttempts ++ [sentMessage ext s], client_socket := false }

/-- Except handler of `aruco_detection`: when not headless, reset the
annotated frame to (a copy of) the current frame. -/
def onDetectError (t : State α Frame) : State α Frame :=
  if t.headless then t else { t with annotated_frame := t.current_frame }

/-- The grayscale-and-detect part of `aruco_detection`'s `try` block:
`cvtColor`, `equalizeHist`, `detectMarkers`. -/
def detectPipeline (ext : Ext α Frame) (image : Frame) :
    Except Unit (List (List (α × α)) × Option (List Nat) × Nat) :=
  match ext.cvtGray image with
  | .error e => .error e
  | .ok g1 =>
    match ext.equalizeHist g1 with
    | .error e => .error e
    | .ok gray => ext.detectMarkers gray

/-- The visualization part of `aruco_detection` (skipped when headless):
draw detected markers, draw rejected candidates, put the status text. The
result is the new annotated frame; `.error` carries the annotated frame at
the point where a drawing call raised. -/
def visTry (ext : Ext α Frame) (headless : Bool) (ann : Option Frame)
    (cs : List (List (α × α))) (idsOpt : Option (List Nat)) (rej : Nat) :
    Except (Option Frame) (Option Frame) :=
  if headless then .ok ann
  else
    match ann with
    | none => .ok none
    | some a0 =>
      match (if 0 < (idsOpt.getD []).length then
               ext.drawDetected a0 cs (idsOpt.getD []) else .ok a0) with
      | .error _ => .error (some a0)
      | .ok a1 =>
        match (if 0 < rej then ext.drawRejected a1 rej else .ok a1) with
        | .error _ => .error (some a1)
        | .ok a2 =>
          match ext.putText a2
              ("Detected: " ++ toString (idsOpt.getD []).length ++
               ", Rejected: " ++ toString rej) with
          | .error _ => .error (some a2)
          | .ok a3 => .ok (some a3)

/-- The pose sample appended to `self.pose_data` for camera position `pos`
and camera angle `θ`: the position is shifted backward by 0.1 m along the
heading, scaled by `RATIO_MTS`, and the y axis is flipped. -/
def sampleOf (ext : Ext α Frame) (pos : α × α × α) (θ : α) : α × α × α :=
  let x := pos.1 - 0.1 * ext.cosFn (ext.radiansFn θ)
  let y := pos.2.1 - 0.1 * ext.sinFn (ext.radiansFn θ)
  (x * RATIO_MTS, (SCREENHEIGHT : α) - y * RATIO_MTS, θ)

/-- The state mutation of `aruco_detection` on a successfully computed pose:
store `last_valid_pos`/`last_valid_angle` and append the sample. -/
def applyPose (ext : Ext α Frame) (s : State α Frame) (pos : α × α × α) (θ : α) :
    State α Frame :=
  { s with last_valid_pos := (pos.1, pos.2.1), last_valid_angle := θ,
           pose_data := s.pose_data ++ [sampleOf ext pos θ] }

/-- The pose part of `aruco_detection`'s `try` block: when markers were
detected, run the multi-marker PnP, extract the yaw, store the pose, append
the map-projected sample to `pose_data`, and send it over TCP when a client
is attached. `.error` carries the state at the point where a call raised. -/
def mainPhase (ext : Ext α Frame) (s : State α Frame) :
    Except (State α Frame) (State α Frame) :=
  match s.ids with
  | none => .ok s
  | some ids =>
    if 0 < ids.length then
      match get_camera_position_from_multiple_markers ext s with
      | .error _ => .error s
      | .ok none => .ok s
      | .ok (some (pos, rvec, tvec)) =>
        match get_camera_angle_from_rtvec ext rvec tvec with
        | .error _ => .error s
        | .ok cameraAngle =>
          let s2 := applyPose ext s pos cameraAngle
          .ok (if s2.tcp && s2.client_socket then convert_and_send ext s2 else s2)
    else .ok s

/-- The per-marker loop of `poseEstimation`: estimate each single marker's
pose and (when not headless) draw its axes on the annotated frame; an
`IndexError` on `marker_ids[i]` or a raising call ends the loop (caught by
the method's `except`), keeping the annotated frame drawn so far. -/
def poseEstLoop (ext : Ext α Frame) (headless : Bool)
    (m : List (Nat × MarkerInfo α)) (msize : α) (ids : List Nat) :
    List (List (α × α)) → Nat → Option Frame → Option Frame
  | [], _, ann => ann
  | c :: rest, i, ann =>
    match ids.get? i with
    | none => ann
    | some mid =>
      let len := match lookupMarker m mid with
        | some info => info.size
        | none => msize
      match ext.estimateSingle c len with
      | .error _ => ann
      | .ok (rvec, tvec) =>
        if headless then poseEstLoop ext headless m msize ids rest (i + 1) ann
        else
          match ann with
          | none => poseEstLoop ext headless m msize ids rest (i + 1) none
          | some a =>
            match ext.drawAxes a rvec tvec with
            | .error _ => some a
            | .ok a1 => poseEstLoop ext headless m msize ids rest (i + 1) (some a1)

/-- `poseEstimation`: per-marker single-pose estimation used only for the
axis visualization; it changes at most the annotated frame. -/
def poseEstimation (ext : Ext α Frame) (s : State α Frame) : State α Frame :=
  if s.current_frame.isNone || !s.aruco_available then s
  else
    let ann := poseEstLoop ext s.headless s.marker_world_positions s.marker_size
      (s.ids.getD []) (s.corners.getD []) 0 s.annotated_frame
    { s with annotated_frame := ann }

/-- The `try` block of `aruco_detection` after the annotated frame was
initialized: grayscale conversion and detection, visualization, the pose
computation, and the final `poseEstimation` call; any raise is caught and
handled by `onDetectError`, keeping the state mutated before the raise. -/
def detectBody (ext : Ext α Frame) (image : Frame) (s0 : State α Frame) : State α Frame :=
  match detectPipeline ext image with
  | .error _ => onDetectError s0
  | .ok (cs, idsOpt, rej) =>
    match visTry ext s0.headless s0.annotated_frame cs idsOpt rej with
    | .error a =>
      onDetectError { s0 with corners := some cs, ids := idsOpt, annotated_frame := a }
    | .ok a =>
      match mainPhase ext { s0 with corners := some cs, ids := idsOpt, annotated_frame := a } with
      | .error t => onDetectError t
      | .ok t => poseEstimation ext t

/-- `aruco_detection`: the per-frame processing step. All exceptions raised
inside the `try` block are caught and handled by resetting the annotated
frame (`onDetectError`); the state mutated before the raise is kept. -/
def arucoDetection (ext : Ext α Frame) (s : State α Frame) : State α Frame :=
  match s.current_frame, s.aruco_available with
  | none, _ => if s.headless then s else { s with annotated_frame := s.current_frame }
  | some _, false => if s.headless then s else { s with annotated_frame := s.current_frame }
  | some image, true =>
    detectBody ext image (if s.headless then s else { s with annotated_frame := some image })

/-- The history-demotion block of `update_frame`: when a current frame is
present, append it to `self.frames` and pop the oldest element when the
history exceeds `num_frames`. -/
def shiftFrames (s : State α Frame) : State α Frame :=
  match s.current_frame with
  | none => s
  | some cur =>
    let fs := s.frames ++ [cur]
    { s with frames := if s.num_frames < fs.length then fs.tail else fs }

/-- `update_frame`: a `None` frame is ignored; otherwise the previous current
frame is demoted into the history (evicting the oldest when the history
exceeds `num_frames`), the new frame becomes current, and `aruco_detection`
runs. -/
def update_frame (ext : Ext α Frame) (s : State α Frame) (newFrame : Option Frame) :
    State α Frame :=
  match newFrame with
  | none => s
  | some f => arucoDetection ext { shiftFrames s with current_frame := some f }

/-- A sequence of `update_frame` calls. -/
def run (ext : Ext α Frame) (s : State α Frame) (l : List (Option Frame)) : State α Frame :=
  l.foldl (update_frame ext) s

/-- A sequence of `update_frame` calls with non-`None` frames. -/
def runFrames (ext : Ext α Frame) (s : State α Frame) (l : List Frame) : State α Frame :=
  run ext s (l.map some)

/-- The frames currently held by the processor: the history plus the current
frame (the count returned by `get_frame_count`). -/
def heldFrames (s : State α Frame) : List Frame :=
  s.frames ++ s.current_frame.toList

/-- The `while` loop of `get_next_output_filename`: the first counter value
`c' ≥ c` for which `output/output<c'>.csv` does not exist. The directory
contents are modelled by the list of existing indices. -/
def findFreeIndex (existing : List Nat) (c : Nat) : Nat :=
  if c ∈ existing then findFreeIndex existing (c + 1) else c
termination_by (existing.foldr max 0 + 1) - c
decreasing_by
  rename_i h
  have hle : c ≤ existing.foldr max 0 := by
    induction existing with
    | nil => cases h
    | cons a tl ih =>
      rcases List.mem_cons.mp h with rfl | h2
      · exact le_max_left _ _
      · exact le_trans (ih h2) (le_max_right _ _)
  omega

/-- `get_next_output_filename`: probe `output/output1.csv`, `output2`, …
upward and return the first unused index. -/
def get_next_output_filename (existing : List Nat) : Nat :=
  findFreeIndex existing 1

/-- The file name written for index `n`. -/
def outputFilename (n : Nat) : String :=
  "output/output" ++ toString n ++ ".csv"

/-- One CSV data row as written by `csv.writer` for a pose entry, with `fmt`
the Python string conversion of a float. -/
def csvRow (fmt : α → String) (r : α × α × α) : List String :=
  [fmt r.1, fmt r.2.1, fmt r.2.2]

/-- `save_pose_data_to_csv`: no write when `pose_data` is empty; otherwise
the next free numbered file is written with the header row `x,y,yaw`
followed by all samples in insertion order. The result is `none` (no write)
or the written file's index and rows. -/
def save_pose_data_to_csv (fmt : α → String) (existing : List Nat)
    (s : State α Frame) : Option (Nat × List (List String)) :=
  if s.pose_data.isEmpty then none
  else
    some (get_next_output_filename existing,
      ["x", "y", "yaw"] :: s.pose_data.map (csvRow fmt))

/-- Parsing one CSV data row back into a pose entry. -/
def parseCsvRow (pa : String → Option α) : List String → Option (α × α × α)
  | [a, b, c] =>
    match pa a, pa b, pa c with
    | some x, some y, some z => some (x, y, z)
    | _, _, _ => none
  | _ => none

/-- Parsing all CSV data rows. -/
def parseCsv (pa : String → Option α) : List (List String) → Option (List (α × α × α))
  | [] => some []
  | row :: rest =>
    match parseCsvRow pa row, parseCsv pa rest with
    | some r, some tl => some (r :: tl)
    | _, _ => none

/-- The message triple built by `convert_and_send` after `applyPose`, as a
function of the camera position and angle. -/
def msgOf (ext : Ext α Frame) (pos : α × α × α) (θ : α) : α × α × α :=
  (pos.1 * RATIO_MTS - 50 * ext.cosFn (ext.radiansFn θ),
   ((MAPHEIGHT : α) - pos.2.1) * RATIO_MTS + 50 * ext.sinFn (ext.radiansFn θ),
   ext.radiansFn θ)

/-- Projection of the state onto the pose-related fields: stored pose, pose
log, send log, and client flag. -/
def poseCore (s : State α Frame) :
    (α × α) × α × List (α × α × α) × List (α × α × α) × Bool :=
  (s.last_valid_pos, s.last_valid_angle, s.pose_data, s.sendAttempts, s.client_socket)

/-- `math.atan2 y x` over the reals, modelled by the complex argument
(`atan2 y x = arg (x + i y)`, with range `(-pi, pi]` and `atan2 0 0 = 0`,
matching the Python function). -/
noncomputable def realAtan2 (y x : ℝ) : ℝ := Complex.arg ⟨x, y⟩

/-- `math.degrees`. -/
noncomputable def realDegrees (r : ℝ) : ℝ := r * 180 / Real.pi

/-- `math.radians`. -/
noncomputable def realRadians (d : ℝ) : ℝ := d * Real.pi / 180

/-- The oracle record over `ℝ` in which the `math` trigonometry is the
genuine real functions while the OpenCV callables stay abstract. -/
noncomputable def mkRealExt {Frame : Type} (arucoAv acceptOk : Bool)
    (cvtGray equalizeHist : Frame → Except Unit Frame)
    (detectMarkers : Frame → Except Unit (List (List (ℝ × ℝ)) × Option (List Nat) × Nat))
    (drawDetected : Frame → List (List (ℝ × ℝ)) → List Nat → Except Unit Frame)
    (drawRejected : Frame → Nat → Except Unit Frame)
    (putText : Frame → String → Except Unit Frame)
    (solvePnPFn : List (ℝ × ℝ × ℝ) → List (ℝ × ℝ) →
      Except Unit (Option ((ℝ × ℝ × ℝ) × (ℝ × ℝ × ℝ))))
    (rodrigues : ℝ × ℝ × ℝ → Except Unit (Fin 3 → Fin 3 → ℝ))
    (estimateSingle : List (ℝ × ℝ) → ℝ → Except Unit ((ℝ × ℝ × ℝ) × (ℝ × ℝ × ℝ)))
    (drawAxes : Frame → (ℝ × ℝ × ℝ) → (ℝ × ℝ × ℝ) → Except Unit Frame)
    (sOk : Nat → Bool) : Ext ℝ Frame where
  arucoAvailable := arucoAv
  acceptOk := acceptOk
  cvtGray := cvtGray
  equalizeHist := equalizeHist
  detectMarkers := detectMarkers
  drawDetected := drawDetected
  drawRejected := drawRejected
  putText := putText
  solvePnPFn := solvePnPFn
  rodrigues := rodrigues
  estimateSingle := estimateSingle
  drawAxes := drawAxes
  atan2 := realAtan2
  degreesFn := realDegrees
  radiansFn := realRadians
  cosFn := Real.cos
  sinFn := Real.sin
  sendOk := sOk

/-- The yaw convention stated by the spec: extract yaw as
`atan2(R[2,0], R[2,1])` in radians, convert to degrees, then apply the
fixed offset `yaw' = -yaw + 90`; no wraparound normalization beyond this. -/
noncomputable def specYaw (R : Fin 3 → Fin 3 → ℝ) : ℝ :=
  -(realDegrees (realAtan2 (R 2 0) (R 2 1))) + 90

/-- Simple computable oracle family over any field, with frame type `Unit`:
image operations are the identity, detection always reports `det`, and the
solver and Rodrigues oracles return fixed values. -/
def simpleExt (α : Type) [Field α]
    (accept : Bool) (det : List (List (α × α)) × Option (List Nat) × Nat)
    (rv tv : α × α × α) (R : Fin 3 → Fin 3 → α) (at2 : α → α → α)
    (deg rad cosF sinF : α → α) (sOk : Nat → Bool) : Ext α Unit where
  arucoAvailable := true
  acceptOk := accept
  cvtGray := fun f => .ok f
  equalizeHist := fun f => .ok f
  detectMarkers := fun _ => .ok det
  drawDetected := fun a _ _ => .ok a
  drawRejected := fun a _ => .ok a
  putText := fun a _ => .ok a
  solvePnPFn := fun _ _ => .ok (some (rv, tv))
  rodrigues := fun _ => .ok R
  estimateSingle := fun _ _ => .error ()
  drawAxes := fun a _ _ => .ok a
  atan2 := at2
  degreesFn := deg
  radiansFn := rad
  cosFn := cosF
  sinFn := sinF
  sendOk := sOk

/-- Four identical detected corner points (the oracles ignore them). -/
def ptsW : List (ℚ × ℚ) := [(0, 0), (0, 0), (0, 0), (0, 0)]

/-- Oracles for a witness where the single detected id 1000 is not a key of
the marker map. -/
def extW1 : Ext ℚ Unit :=
  simpleExt ℚ false ([ptsW], some [1000], 0) (0, 0, 0) (0, 0, 0) (fun _ _ => 0)
    (fun _ _ => 0) (fun d => d) (fun d => d / 60) (fun _ => 0) (fun _ => 0)
    (fun _ => true)

/-- Oracles for a witness with a successful pose and a failing send. -/
def extW2 : Ext ℚ Unit :=
  simpleExt ℚ true ([ptsW], some [0], 0) (0, 0, 0) (0, 0, 0) (fun _ _ => 0)
    (fun _ _ => 0) (fun d => d) (fun d => d / 60) (fun _ => 0) (fun _ => 0)
    (fun _ => false)

/-- Oracles for a witness with a successful pose and a successful send. -/
def extW3 : Ext ℚ Unit :=
  simpleExt ℚ true ([ptsW], some [0], 0) (0, 0, 0) (0, 0, 0) (fun _ _ => 0)
    (fun _ _ => 0) (fun d => d) (fun d => d / 60) (fun _ => 0) (fun _ => 0)
    (fun _ => true)

/-- The rotation matrix of the rotation vector `(-pi/2, 0, 0)` (rotation by
-90 degrees about the x axis): bottom row `(0, -1, 0)`. -/
def rotXneg90 (α : Type) [Field α] : Fin 3 → Fin 3 → α := fun i j =>
  if i = 0 ∧ j = 0 then 1 else if i = 1 ∧ j = 2 then 1
  else if i = 2 ∧ j = 1 then -1 else 0

/-- The identity rotation matrix (the Rodrigues image of the zero vector). -/
def idMat3 (α : Type) [Field α] : Fin 3 → Fin 3 → α := fun i j =>
  if i = j then 1 else 0

/-- Real-trigonometry oracles for which a processed frame stores a heading
of -90 degrees: the detector reports marker 0 and the solver returns the
rotation vector `(-pi/2, 0, 0)`, whose Rodrigues matrix is `rotXneg90`. -/
noncomputable def extC9 : Ext ℝ Unit :=
  simpleExt ℝ false ([[(0, 0), (0, 0), (0, 0), (0, 0)]], some [0], 0)
    (-(Real.pi / 2), 0, 0) (0, 0, 0) (rotXneg90 ℝ) realAtan2 realDegrees
    realRadians Real.cos Real.sin (fun _ => true)

/-- Real-trigonometry oracles for which a processed frame stores a heading
of 90 degrees (identity rotation) and sends it over an attached client. -/
noncomputable def extC3 : Ext ℝ Unit :=
  simpleExt ℝ true ([[(0, 0), (0, 0), (0, 0), (0, 0)]], some [0], 0)
    (0, 0, 0) (0, 0, 0) (idMat3 ℝ) realAtan2 realDegrees realRadians
    Real.cos Real.sin (fun _ => true)


/-- Oracles over rational scalars and `Nat` frames with the detector
unavailable: `update_frame` then only maintains the frame history. -/
def extW4 : Ext ℚ Nat where
  arucoAvailable := false
  acceptOk := false
  cvtGray := fun f => .ok f
  equalizeHist := fun f => .ok f
  detectMarkers := fun _ => .ok ([], none, 0)
  drawDetected := fun a _ _ => .ok a
  drawRejected := fun a _ => .ok a
  putText := fun a _ => .ok a
  solvePnPFn := fun _ _ => .ok none
  rodrigues := fun _ => .ok (fun _ _ => 0)
  estimateSingle := fun _ _ => .error ()
  drawAxes := fun a _ _ => .ok a
  atan2 := fun _ _ => 0
  degreesFn := fun d => d
  radiansFn := fun d => d
  cosFn := fun _ => 0
  sinFn := fun _ => 0
  sendOk := fun _ => true

/-- A constant float-to-string conversion for a CSV witness. -/
def fmtW : ℚ → String := fun _ => "a"

/-- A parse function that inverts `fmtW` on the witness data. -/
def paW : String → Option ℚ := fun _ => some 1

/-- A processor state holding one recorded pose sample. -/
def stW5 : State ℚ Unit := { initState extW1 true false with pose_data := [(1, 1, 1)] }


theorem sentMessage_applyPose (ext : Ext α Frame) (s : State α Frame)
    (pos : α × α × α) (θ : α) :
    sentMessage ext (applyPose ext s pos θ) = msgOf ext pos θ := rfl

theorem onDetectError_shape (t : State α Frame) :
    onDetectError t = t ∨ ∃ a, onDetectError t = { t with annotated_frame := a } := by
  unfold onDetectError
  split
  · exact Or.inl rfl
  · exact Or.inr ⟨_, rfl⟩

theorem poseEstimation_shape (ext : Ext α Frame) (s : State α Frame) :
    poseEstimation ext s = s ∨
    ∃ a, poseEstimation ext s = { s with annotated_frame := a } := by
  unfold poseEstimation
  split
  · exact Or.inl rfl
  · exact Or.inr ⟨_, rfl⟩

theorem convert_and_send_shape (ext : Ext α Frame) (s : State α Frame) :
    ∃ cl, convert_and_send ext s
      = { s with sendAttempts := s.sendAttempts ++ [sentMessage ext s],
                 client_socket := cl } := by
  unfold convert_and_send
  split
  · exact ⟨s.client_socket, rfl⟩
  · exact ⟨false, rfl⟩

theorem poseEstimation_poseCore (ext : Ext α Frame) (s : State α Frame) :
    poseCore (poseEstimation ext s) = poseCore s := by
  rcases poseEstimation_shape ext s with h | ⟨a, h⟩ <;> rw [h] <;> rfl

theorem onDetectError_poseCore (t : State α Frame) :
    poseCore (onDetectError t) = poseCore t := by
  rcases onDetectError_shape t with h | ⟨a, h⟩ <;> rw [h] <;> rfl

/-- Inversion for `mainPhase`: an exception leaves the state it carries
untouched, and a normal return either leaves the state untouched or is the
full successful pose-update path. -/
theorem mainPhase_error_eq {ext : Ext α Frame} {s t : State α Frame}
    (h : mainPhase ext s = .error t) : t = s := by
  unfold mainPhase at h
  split at h
  · cases h
  · split at h
    · split at h
      · cases h; rfl
      · cases h
      · split at h
        · cases h; rfl
        · cases h
    · cases h

theorem mainPhase_ok_cases {ext : Ext α Frame} {s t : State α Frame}
    (h : mainPhase ext s = .ok t) :
    t = s ∨ ∃ pos rvec tvec θ,
      get_camera_position_from_multiple_markers ext s = .ok (some (pos, rvec, tvec)) ∧
      get_camera_angle_from_rtvec ext rvec tvec = .ok θ ∧
      t = (if s.tcp && s.client_socket then
             convert_and_send ext (applyPose ext s pos θ)
           else applyPose ext s pos θ) := by
  unfold mainPhase at h
  split at h
  · cases h; exact Or.inl rfl
  · rename_i ids hids
    split at h
    · rename_i hlen
      split at h
      · cases h
      · cases h; exact Or.inl rfl
      · rename_i pr hpos
        split at h
        · cases h
        · rename_i θ hang
          cases h
          exact Or.inr ⟨_, _, _, _, hpos, hang, rfl⟩
    · cases h; exact Or.inl rfl

@[simp] theorem onDetectError_frames (t : State α Frame) :
    (onDetectError t).frames = t.frames := by
  rcases onDetectError_shape t with h | ⟨a, h⟩ <;> rw [h]

@[simp] theorem onDetectError_current (t : State α Frame) :
    (onDetectError t).current_frame = t.current_frame := by
  rcases onDetectError_shape t with h | ⟨a, h⟩ <;> rw [h]

@[simp] theorem onDetectError_num (t : State α Frame) :
    (onDetectError t).num_frames = t.num_frames := by
  rcases onDetectError_shape t with h | ⟨a, h⟩ <;> rw [h]

@[simp] theorem onDetectError_pos (t : State α Frame) :
    (onDetectError t).last_valid_pos = t.last_valid_pos := by
  rcases onDetectError_shape t with h | ⟨a, h⟩ <;> rw [h]

@[simp] theorem onDetectError_angle (t : State α Frame) :
    (onDetectError t).last_valid_angle = t.last_valid_angle := by
  rcases onDetectError_shape t with h | ⟨a, h⟩ <;> rw [h]

@[simp] theorem onDetectError_pose_data (t : State α Frame) :
    (onDetectError t).pose_data = t.pose_data := by
  rcases onDetectError_shape t with h | ⟨a, h⟩ <;> rw [h]

@[simp] theorem onDetectError_sendAttempts (t : State α Frame) :
    (onDetectError t).sendAttempts = t.sendAttempts := by
  rcases onDetectError_shape t with h | ⟨a, h⟩ <;> rw [h]

@[simp] theorem onDetectError_client (t : State α Frame) :
    (onDetectError t).client_socket = t.client_socket := by
  rcases onDetectError_shape t with h | ⟨a, h⟩ <;> rw [h]

@[simp] theorem poseEstimation_frames (ext : Ext α Frame) (s : State α Frame) :
    (poseEstimation ext s).frames = s.frames := by
  rcases poseEstimation_shape ext s with h | ⟨a, h⟩ <;> rw [h]

@[simp] theorem poseEstimation_current (ext : Ext α Frame) (s : State α Frame) :
    (poseEstimation ext s).current_frame = s.current_frame := by
  rcases poseEstimation_shape ext s with h | ⟨a, h⟩ <;> rw [h]

@[simp] theorem poseEstimation_num (ext : Ext α Frame) (s : State α Frame) :
    (poseEstimation ext s).num_frames = s.num_frames := by
  rcases poseEstimation_shape ext s with h | ⟨a, h⟩ <;> rw [h]

@[simp] theorem poseEstimation_pos (ext : Ext α Frame) (s : State α Frame) :
    (poseEstimation ext s).last_valid_pos = s.last_valid_pos := by
  rcases poseEstimation_shape ext s with h | ⟨a, h⟩ <;> rw [h]

@[simp] theorem poseEstimation_angle (ext : Ext α Frame) (s : State α Frame) :
    (poseEstimation ext s).last_valid_angle = s.last_valid_angle := by
  rcases poseEstimation_shape ext s with h | ⟨a, h⟩ <;> rw [h]

@[simp] theorem poseEstimation_pose_data (ext : Ext α Frame) (s : State α Frame) :
    (poseEstimation ext s).pose_data = s.pose_data := by
  rcases poseEstimation_shape ext s with h | ⟨a, h⟩ <;> rw [h]

@[simp] theorem poseEstimation_sendAttempts (ext : Ext α Frame) (s : State α Frame) :
    (poseEstimation ext s).sendAttempts = s.sendAttempts := by
  rcases poseEstimation_shape ext s with h | ⟨a, h⟩ <;> rw [h]

@[simp] theorem poseEstimation_client (ext : Ext α Frame) (s : State α Frame) :
    (poseEstimation ext s).client_socket = s.client_socket := by
  rcases poseEstimation_shape ext s with h | ⟨a, h⟩ <;> rw [h]

@[simp] theorem convert_and_send_frames (ext : Ext α Frame) (s : State α Frame) :
    (convert_and_send ext s).frames = s.frames := by
  rcases convert_and_send_shape ext s with ⟨cl, h⟩ <;> rw [h]

@[simp] theorem convert_and_send_current (ext : Ext α Frame) (s : State α Frame) :
    (convert_and_send ext s).current_frame = s.current_frame := by
  rcases convert_and_send_shape ext s with ⟨cl, h⟩ <;> rw [h]

@[simp] theorem convert_and_send_num (ext : Ext α Frame) (s : State α Frame) :
    (convert_and_send ext s).num_frames = s.num_frames := by
  rcases convert_and_send_shape ext s with ⟨cl, h⟩ <;> rw [h]

@[simp] theorem convert_and_send_pos (ext : Ext α Frame) (s : State α Frame) :
    (convert_and_send ext s).last_valid_pos = s.last_valid_pos := by
  rcases convert_and_send_shape ext s with ⟨cl, h⟩ <;> rw [h]

@[simp] theorem convert_and_send_angle (ext : Ext α Frame) (s : State α Frame) :
    (convert_and_send ext s).last_valid_angle = s.last_valid_angle := by
  rcases convert_and_send_shape ext s with ⟨cl, h⟩ <;> rw [h]

@[simp] theorem convert_and_send_pose_data (ext : Ext α Frame) (s : State α Frame) :
    (convert_and_send ext s).pose_data = s.pose_data := by
  rcases convert_and_send_shape ext s with ⟨cl, h⟩ <;> rw [h]

@[simp] theorem convert_and_send_sendAttempts (ext : Ext α Frame) (s : State α Frame) :
    (convert_and_send ext s).sendAttempts = s.sendAttempts ++ [sentMessage ext s] := by
  unfold convert_and_send
  split <;> rfl

@[simp] theorem applyPose_frames (ext : Ext α Frame) (s : State α Frame)
    (pos : α × α × α) (θ : α) : (applyPose ext s pos θ).frames = s.frames := rfl

@[simp] theorem applyPose_current (ext : Ext α Frame) (s : State α Frame)
    (pos : α × α × α) (θ : α) :
    (applyPose ext s pos θ).current_frame = s.current_frame := rfl

@[simp] theorem applyPose_num (ext : Ext α Frame) (s : State α Frame)
    (pos : α × α × α) (θ : α) : (applyPose ext s pos θ).num_frames = s.num_frames := rfl

@[simp] theorem applyPose_pos (ext : Ext α Frame) (s : State α Frame)
    (pos : α × α × α) (θ : α) :
    (applyPose ext s pos θ).last_valid_pos = (pos.1, pos.2.1) := rfl

@[simp] theorem applyPose_angle (ext : Ext α Frame) (s : State α Frame)
    (pos : α × α × α) (θ : α) : (applyPose ext s pos θ).last_valid_angle = θ := rfl

@[simp] theorem applyPose_pose_data (ext : Ext α Frame) (s : State α Frame)
    (pos : α × α × α) (θ : α) :
    (applyPose ext s pos θ).pose_data = s.pose_data ++ [sampleOf ext pos θ] := rfl

@[simp] theorem applyPose_sendAttempts (ext : Ext α Frame) (s : State α Frame)
    (pos : α × α × α) (θ : α) :
    (applyPose ext s pos θ).sendAttempts = s.sendAttempts := rfl

@[simp] theorem applyPose_client (ext : Ext α Frame) (s : State α Frame)
    (pos : α × α × α) (θ : α) :
    (applyPose ext s pos θ).client_socket = s.client_socket := rfl

@[simp] theorem applyPose_tcp (ext : Ext α Frame) (s : State α Frame)
    (pos : α × α × α) (θ : α) : (applyPose ext s pos θ).tcp = s.tcp := rfl

/-- `detectBody` never touches the frame history or the current frame. -/
theorem detectBody_frames (ext : Ext α Frame) (image : Frame) (s0 : State α Frame) :
    (detectBody ext image s0).frames = s0.frames ∧
    (detectBody ext image s0).current_frame = s0.current_frame ∧
    (detectBody ext image s0).num_frames = s0.num_frames := by
  unfold detectBody
  split
  · simp
  · split
    · simp
    · rename_i cs idsOpt rej heq a heqv
      split
      · rename_i t heqm
        have ht := mainPhase_error_eq heqm
        subst ht
        simp
      · rename_i t heqm
        rcases mainPhase_ok_cases heqm with ht | ⟨pos, rvec, tvec, θ, hp, ha, ht⟩ <;>
          subst ht
        · simp
        · split <;> simp

/-- Case analysis for `detectBody` on the pose-related fields: either they
are all unchanged, or the full successful pose path ran on an intermediate
state `s₂` agreeing with `s0` on the pose-related fields and the marker
map. -/
theorem detectBody_pose_cases (ext : Ext α Frame) (image : Frame) (s0 : State α Frame) :
    poseCore (detectBody ext image s0) = poseCore s0
    ∨ ∃ s₂ pos rvec tvec θ cs idsOpt rej,
        poseCore s₂ = poseCore s0 ∧
        s₂.marker_world_positions = s0.marker_world_positions ∧
        s₂.tcp = s0.tcp ∧
        detectPipeline ext image = .ok (cs, idsOpt, rej) ∧
        s₂.ids = idsOpt ∧
        s₂.corners = some cs ∧
        get_camera_position_from_multiple_markers ext s₂ = .ok (some (pos, rvec, tvec)) ∧
        get_camera_angle_from_rtvec ext rvec tvec = .ok θ ∧
        detectBody ext image s0
          = poseEstimation ext
              (if s0.tcp && s0.client_socket then
                convert_and_send ext (applyPose ext s₂ pos θ)
              else applyPose ext s₂ pos θ) := by
  cases hdp : detectPipeline ext image with
  | error e =>
    left
    simp only [detectBody, hdp]
    exact onDetectError_poseCore s0
  | ok trip =>
    obtain ⟨cs, idsOpt, rej⟩ := trip
    cases hv : visTry ext s0.headless s0.annotated_frame cs idsOpt rej with
    | error a =>
      left
      simp only [detectBody, hdp, hv]
      rw [onDetectError_poseCore]
      rfl
    | ok a =>
      cases hm : mainPhase ext
          { s0 with corners := some cs, ids := idsOpt, annotated_frame := a } with
      | error t =>
        left
        simp only [detectBody, hdp, hv, hm]
        have ht := mainPhase_error_eq hm
        subst ht
        rw [onDetectError_poseCore]
        rfl
      | ok t =>
        rcases mainPhase_ok_cases hm with ht | ⟨pos, rvec, tvec, θ, hp, ha, ht⟩ <;>
          subst ht
        · left
          simp only [detectBody, hdp, hv, hm]
          rw [poseEstimation_poseCore]
          rfl
        · right
          refine ⟨_, pos, rvec, tvec, θ, cs, idsOpt, rej, ?_, ?_, ?_, ?_, ?_, ?_,
            hp, ha, ?_⟩ <;>
            first
            | rfl
            | (simp only [detectBody, hdp, hv, hm]; try rfl)

/-- `aruco_detection` never touches the frame history or the current frame. -/
theorem arucoDetection_frames (ext : Ext α Frame) (s : State α Frame) :
    (arucoDetection ext s).frames = s.frames ∧
    (arucoDetection ext s).current_frame = s.current_frame ∧
    (arucoDetection ext s).num_frames = s.num_frames := by
  unfold arucoDetection
  split
  · split <;> simp
  · split <;> simp
  · rename_i image heq1 heq2
    obtain ⟨h1, h2, h3⟩ := detectBody_frames ext image
      (if s.headless then s else { s with annotated_frame := some image })
    rw [h1, h2, h3]
    refine ⟨?_, ?_, ?_⟩ <;> split <;> rfl

/-- Case analysis for `aruco_detection` on the pose-related fields. -/
theorem arucoDetection_pose_cases (ext : Ext α Frame) (s : State α Frame) :
    poseCore (arucoDetection ext s) = poseCore s
    ∨ ∃ s₂ pos rvec tvec θ cs idsOpt rej image,
        poseCore s₂ = poseCore s ∧
        s₂.marker_world_positions = s.marker_world_positions ∧
        s₂.tcp = s.tcp ∧
        s.current_frame = some image ∧
        detectPipeline ext image = .ok (cs, idsOpt, rej) ∧
        s₂.ids = idsOpt ∧
        s₂.corners = some cs ∧
        get_camera_position_from_multiple_markers ext s₂ = .ok (some (pos, rvec, tvec)) ∧
        get_camera_angle_from_rtvec ext rvec tvec = .ok θ ∧
        arucoDetection ext s
          = poseEstimation ext
              (if s.tcp && s.client_socket then
                convert_and_send ext (applyPose ext s₂ pos θ)
              else applyPose ext s₂ pos θ) := by
  unfold arucoDetection
  split
  · left; split <;> rfl
  · left; split <;> rfl
  · rename_i image heq1 heq2
    have hpose : poseCore (if s.headless then s else { s with annotated_frame := some image })
        = poseCore s := by split <;> rfl
    have hmw : (if s.headless then s else { s with annotated_frame := some image
        }).marker_world_positions = s.marker_world_positions := by split <;> rfl
    have htc : (if s.headless then s else { s with annotated_frame := some image }).tcp
        = s.tcp := by split <;> rfl
    have hclsk : (if s.headless then s else { s with annotated_frame := some image
        }).client_socket = s.client_socket := by split <;> rfl
    rcases detectBody_pose_cases ext image
        (if s.headless then s else { s with annotated_frame := some image }) with
      h | ⟨s₂, pos, rvec, tvec, θ, cs, idsOpt, rej, hc, hm, htcp, hdp, hdi, hdc, hp, ha, heqb⟩
    · left
      rw [h, hpose]
    · right
      refine ⟨s₂, pos, rvec, tvec, θ, cs, idsOpt, rej, image, ?_, ?_, ?_, heq1, hdp,
        hdi, hdc, hp, ha, ?_⟩
      · rw [hc, hpose]
      · rw [hm, hmw]
      · rw [htcp, htc]
      · rw [heqb, htc, hclsk]

/-- `update_frame` with a `None` frame is the identity on the state. -/
theorem update_frame_none (ext : Ext α Frame) (s : State α Frame) :
    update_frame ext s none = s := rfl

/-- An `update_frame` step with a frame is `aruco_detection` applied to the
frames-shifted state; that shift touches only `frames` and `current_frame`. -/
theorem shiftFrames_shape (s : State α Frame) :
    shiftFrames s = s ∨ ∃ fr, shiftFrames s = { s with frames := fr } := by
  unfold shiftFrames
  split
  · exact Or.inl rfl
  · exact Or.inr ⟨_, rfl⟩

theorem shiftFrames_frames_none (s : State α Frame) (h : s.current_frame = none) :
    (shiftFrames s).frames = s.frames := by
  unfold shiftFrames
  rw [h]

theorem shiftFrames_frames_some (s : State α Frame) (cur : Frame)
    (h : s.current_frame = some cur) :
    (shiftFrames s).frames = if s.num_frames < (s.frames ++ [cur]).length then
      (s.frames ++ [cur]).tail else s.frames ++ [cur] := by
  unfold shiftFrames
  rw [h]

@[simp] theorem shiftFrames_current (s : State α Frame) :
    (shiftFrames s).current_frame = s.current_frame := by
  rcases shiftFrames_shape s with h | ⟨fr, h⟩ <;> rw [h]

@[simp] theorem shiftFrames_num (s : State α Frame) :
    (shiftFrames s).num_frames = s.num_frames := by
  rcases shiftFrames_shape s with h | ⟨fr, h⟩ <;> rw [h]

@[simp] theorem shiftFrames_pos (s : State α Frame) :
    (shiftFrames s).last_valid_pos = s.last_valid_pos := by
  rcases shiftFrames_shape s with h | ⟨fr, h⟩ <;> rw [h]

@[simp] theorem shiftFrames_angle (s : State α Frame) :
    (shiftFrames s).last_valid_angle = s.last_valid_angle := by
  rcases shiftFrames_shape s with h | ⟨fr, h⟩ <;> rw [h]

@[simp] theorem shiftFrames_pose_data (s : State α Frame) :
    (shiftFrames s).pose_data = s.pose_data := by
  rcases shiftFrames_shape s with h | ⟨fr, h⟩ <;> rw [h]

@[simp] theorem shiftFrames_sendAttempts (s : State α Frame) :
    (shiftFrames s).sendAttempts = s.sendAttempts := by
  rcases shiftFrames_shape s with h | ⟨fr, h⟩ <;> rw [h]

@[simp] theorem shiftFrames_client (s : State α Frame) :
    (shiftFrames s).client_socket = s.client_socket := by
  rcases shiftFrames_shape s with h | ⟨fr, h⟩ <;> rw [h]

@[simp] theorem shiftFrames_tcp (s : State α Frame) :
    (shiftFrames s).tcp = s.tcp := by
  rcases shiftFrames_shape s with h | ⟨fr, h⟩ <;> rw [h]

@[simp] theorem shiftFrames_mwp (s : State α Frame) :
    (shiftFrames s).marker_world_positions = s.marker_world_positions := by
  rcases shiftFrames_shape s with h | ⟨fr, h⟩ <;> rw [h]

@[simp] theorem shiftFrames_headless (s : State α Frame) :
    (shiftFrames s).headless = s.headless := by
  rcases shiftFrames_shape s with h | ⟨fr, h⟩ <;> rw [h]

@[simp] theorem shiftFrames_aruco (s : State α Frame) :
    (shiftFrames s).aruco_available = s.aruco_available := by
  rcases shiftFrames_shape s with h | ⟨fr, h⟩ <;> rw [h]

@[simp] theorem shiftFrames_ids (s : State α Frame) :
    (shiftFrames s).ids = s.ids := by
  rcases shiftFrames_shape s with h | ⟨fr, h⟩ <;> rw [h]

@[simp] theorem shiftFrames_corners (s : State α Frame) :
    (shiftFrames s).corners = s.corners := by
  rcases shiftFrames_shape s with h | ⟨fr, h⟩ <;> rw [h]

theorem update_frame_some_eq (ext : Ext α Frame) (s : State α Frame) (f : Frame) :
    ∃ s', update_frame ext s (some f) = arucoDetection ext s' ∧
      poseCore s' = poseCore s ∧
      s'.marker_world_positions = s.marker_world_positions ∧
      s'.tcp = s.tcp ∧
      s'.client_socket = s.client_socket ∧
      s'.num_frames = s.num_frames ∧
      s'.headless = s.headless ∧
      s'.aruco_available = s.aruco_available ∧
      s'.ids = s.ids ∧
      s'.corners = s.corners ∧
      s'.current_frame = some f ∧
      ((s.current_frame = none → s'.frames = s.frames) ∧
       (∀ cur, s.current_frame = some cur →
         s'.frames = if s.num_frames < (s.frames ++ [cur]).length then
           (s.frames ++ [cur]).tail else s.frames ++ [cur])) := by
  refine ⟨{ shiftFrames s with current_frame := some f }, rfl, ?_, ?_, ?_, ?_, ?_,
    ?_, ?_, ?_, ?_, rfl, ?_, ?_⟩
  · simp [poseCore]
  · simp
  · simp
  · simp
  · simp
  · simp
  · simp
  · simp
  · simp
  · intro hc
    exact shiftFrames_frames_none s hc
  · intro cur hc
    exact shiftFrames_frames_some s cur hc

/-- Case analysis for a full `update_frame` step on the pose-related fields. -/
theorem update_frame_pose_cases (ext : Ext α Frame) (s : State α Frame) (f : Frame) :
    poseCore (update_frame ext s (some f)) = poseCore s
    ∨ ∃ s₂ pos rvec tvec θ cs idsOpt rej,
        poseCore s₂ = poseCore s ∧
        s₂.marker_world_positions = s.marker_world_positions ∧
        s₂.tcp = s.tcp ∧
        detectPipeline ext f = .ok (cs, idsOpt, rej) ∧
        s₂.ids = idsOpt ∧
        s₂.corners = some cs ∧
        get_camera_position_from_multiple_markers ext s₂ = .ok (some (pos, rvec, tvec)) ∧
        get_camera_angle_from_rtvec ext rvec tvec = .ok θ ∧
        update_frame ext s (some f)
          = poseEstimation ext
              (if s.tcp && s.client_socket then
                convert_and_send ext (applyPose ext s₂ pos θ)
              else applyPose ext s₂ pos θ) := by
  obtain ⟨s', heq, hc, hm, htcp, hcl, hn, hh, har, hids, hcor, hcurf, hfr⟩ :=
    update_frame_some_eq ext s f
  rcases arucoDetection_pose_cases ext s' with
    h | ⟨s₂, pos, rvec, tvec, θ, cs, idsOpt, rej, image, h1, h2, h3, h4, h5, h6, h7,
         h8, h9, h10⟩
  · left
    rw [heq, h, hc]
  · right
    rw [hcurf] at h4
    cases h4
    refine ⟨s₂, pos, rvec, tvec, θ, cs, idsOpt, rej, ?_, ?_, ?_, h5, h6, h7, h8, h9, ?_⟩
    · rw [h1, hc]
    · rw [h2, hm]
    · rw [h3, htcp]
    · rw [heq, h10, htcp, hcl]

theorem poseCore_pos {a b : State α Frame} (h : poseCore a = poseCore b) :
    a.last_valid_pos = b.last_valid_pos := congrArg (fun c => c.1) h

theorem poseCore_angle {a b : State α Frame} (h : poseCore a = poseCore b) :
    a.last_valid_angle = b.last_valid_angle := congrArg (fun c => c.2.1) h

theorem poseCore_pose_data {a b : State α Frame} (h : poseCore a = poseCore b) :
    a.pose_data = b.pose_data := congrArg (fun c => c.2.2.1) h

theorem poseCore_sendAttempts {a b : State α Frame} (h : poseCore a = poseCore b) :
    a.sendAttempts = b.sendAttempts := congrArg (fun c => c.2.2.2.1) h

theorem poseCore_client {a b : State α Frame} (h : poseCore a = poseCore b) :
    a.client_socket = b.client_socket := congrArg (fun c => c.2.2.2.2) h

theorem convert_and_send_client (ext : Ext α Frame) (t : State α Frame) :
    (convert_and_send ext t).client_socket
      = (if ext.sendOk t.sendAttempts.length then t.client_socket else false) := by
  unfold convert_and_send
  split <;> simp_all

/-- Claim C10: calling `update_frame` with a `None` frame leaves the entire
processor state unchanged — current frame, frame history, stored detections
(`corners`/`ids`), stored pose, pose log, and telemetry state are identical
before and after, and no pose sample is recorded. -/
theorem claim_C10 (ext : Ext α Frame) (s : State α Frame) :
    update_frame ext s none = s := rfl

/-- Claim C8: a per-frame `aruco_detection` step is total for every oracle
behavior (the source catches every exception raised in its `try` block), and
the stored pose after the step is either exactly the previous stored pose
(every internal failure path: detector unavailable, raised exceptions, too
few correspondences, solver failure) or the position/yaw pair computed from
a successful `solvePnP` result — never a zeroed fallback pose. -/
theorem claim_C8 (ext : Ext α Frame) (s : State α Frame) (f : Frame) :
    ((update_frame ext s (some f)).last_valid_pos = s.last_valid_pos ∧
     (update_frame ext s (some f)).last_valid_angle = s.last_valid_angle)
    ∨ ∃ s₂ pos rvec tvec cs idsOpt rej,
        detectPipeline ext f = .ok (cs, idsOpt, rej) ∧
        s₂.ids = idsOpt ∧
        s₂.corners = some cs ∧
        s₂.marker_world_positions = s.marker_world_positions ∧
        get_camera_position_from_multiple_markers ext s₂ = .ok (some (pos, rvec, tvec)) ∧
        get_camera_angle_from_rtvec ext rvec tvec
          = .ok ((update_frame ext s (some f)).last_valid_angle) ∧
        (update_frame ext s (some f)).last_valid_pos = (pos.1, pos.2.1) := by
  rcases update_frame_pose_cases ext s f with h |
    ⟨s₂, pos, rvec, tvec, θ, cs, idsOpt, rej, hc, hm, htcp, hdp, hdi, hdc, hp, ha, heq⟩
  · exact Or.inl ⟨poseCore_pos h, poseCore_angle h⟩
  · right
    have hang : (update_frame ext s (some f)).last_valid_angle = θ := by
      rw [heq]
      split <;> simp
    have hpos2 : (update_frame ext s (some f)).last_valid_pos = (pos.1, pos.2.1) := by
      rw [heq]
      split <;> simp
    exact ⟨s₂, pos, rvec, tvec, cs, idsOpt, rej, hdp, hdi, hdc, hm, hp,
      by rw [hang]; exact ha, hpos2⟩

/-- A single step from a state with no client connection keeps the
connection absent and attempts no send. -/
theorem step_client_false (ext : Ext α Frame) (s : State α Frame) (fo : Option Frame)
    (h : s.client_socket = false) :
    (update_frame ext s fo).client_socket = false ∧
    (update_frame ext s fo).sendAttempts = s.sendAttempts := by
  cases fo with
  | none => exact ⟨h, rfl⟩
  | some f =>
    rcases update_frame_pose_cases ext s f with hcase |
      ⟨s₂, pos, rvec, tvec, θ, cs, idsOpt, rej, hc, hm, htcp, hdp, hdi, hdc, hp, ha, heq⟩
    · exact ⟨(poseCore_client hcase).trans h, poseCore_sendAttempts hcase⟩
    · rw [heq, h]
      simp only [Bool.and_false, Bool.false_eq_true, if_false]
      constructor
      · rw [poseEstimation_client, applyPose_client]
        exact (poseCore_client hc).trans h
      · rw [poseEstimation_sendAttempts, applyPose_sendAttempts]
        exact poseCore_sendAttempts hc

/-- A whole run from a state with no client connection keeps the connection
absent and attempts no send. -/
theorem run_client_false (ext : Ext α Frame) (s : State α Frame)
    (l : List (Option Frame)) (h : s.client_socket = false) :
    (run ext s l).client_socket = false ∧ (run ext s l).sendAttempts = s.sendAttempts := by
  induction l generalizing s with
  | nil => exact ⟨h, rfl⟩
  | cons fo tl ih =>
    obtain ⟨h1, h2⟩ := step_client_false ext s fo h
    obtain ⟨g1, g2⟩ := ih _ h1
    exact ⟨g1, g2.trans h2⟩

/-- Claim C7: after a telemetry send fails in `convert_and_send`, the
transport is permanently inactive: the client handle is discarded when a
send attempt fails, it is never re-established, and no later frame attempts
a send (the send log never grows again). -/
theorem claim_C7 (ext : Ext α Frame) (s : State α Frame) (l : List (Option Frame))
    (f : Frame) :
    (s.client_socket = false →
      (run ext s l).client_socket = false ∧
      (run ext s l).sendAttempts = s.sendAttempts) ∧
    (ext.sendOk s.sendAttempts.length = false →
      s.sendAttempts.length < (update_frame ext s (some f)).sendAttempts.length →
      (update_frame ext s (some f)).client_socket = false) := by
  refine ⟨run_client_false ext s l, fun hsend hgrow => ?_⟩
  rcases update_frame_pose_cases ext s f with hcase |
    ⟨s₂, pos, rvec, tvec, θ, cs, idsOpt, rej, hc, hm, htcp, hdp, hdi, hdc, hp, ha, heq⟩
  · rw [poseCore_sendAttempts hcase] at hgrow
    omega
  · rw [heq] at hgrow ⊢
    split at hgrow <;> rename_i hcond
    · rw [if_pos hcond, poseEstimation_client, convert_and_send_client,
        applyPose_sendAttempts, poseCore_sendAttempts hc, hsend]
      rfl
    · rw [poseEstimation_sendAttempts, applyPose_sendAttempts,
        poseCore_sendAttempts hc] at hgrow
      omega

theorem mem_le_foldr_max {l : List Nat} {a : Nat} (h : a ∈ l) :
    a ≤ l.foldr max 0 := by
  induction l with
  | nil => cases h
  | cons b tl ih =>
    rcases List.mem_cons.mp h with rfl | h2
    · exact le_max_left _ _
    · exact le_trans (ih h2) (le_max_right _ _)

/-- Correctness of the probing loop: starting at `c` it returns the least
index `≥ c` whose file does not exist. -/
theorem findFreeIndex_spec (existing : List Nat) (c : Nat) :
    c ≤ findFreeIndex existing c ∧ findFreeIndex existing c ∉ existing ∧
    ∀ m, c ≤ m → m < findFreeIndex existing c → m ∈ existing := by
  generalize hk : existing.foldr max 0 + 1 - c = k
  induction k generalizing c with
  | zero =>
    have hc : c ∉ existing := by
      intro h
      have := mem_le_foldr_max h
      omega
    rw [findFreeIndex, if_neg hc]
    exact ⟨le_refl c, hc, fun m h1 h2 => absurd h2 (by omega)⟩
  | succ k ih =>
    by_cases hc : c ∈ existing
    · have hle := mem_le_foldr_max hc
      obtain ⟨h1, h2, h3⟩ := ih (c + 1) (by omega)
      rw [findFreeIndex, if_pos hc]
      refine ⟨by omega, h2, fun m hm1 hm2 => ?_⟩
      rcases Nat.eq_or_lt_of_le hm1 with rfl | hlt
      · exact hc
      · exact h3 m hlt hm2
    · rw [findFreeIndex, if_neg hc]
      exact ⟨le_refl c, hc, fun m h1 h2 => absurd h2 (by omega)⟩

/-- Claim C6: `get_next_output_filename` returns the file index of the
smallest positive integer `N` such that `output/output<N>.csv` does not
already exist; consequently a flush never overwrites an existing output
file, and when exactly `output/output1.csv` exists the next write goes to
`output/output2.csv`. -/
theorem claim_C6 :
    (∀ existing : List Nat,
      1 ≤ get_next_output_filename existing ∧
      get_next_output_filename existing ∉ existing ∧
      (∀ m, 1 ≤ m → m < get_next_output_filename existing → m ∈ existing)) ∧
    get_next_output_filename [1] = 2 ∧
    outputFilename (get_next_output_filename [1]) = "output/output2.csv" := by
  have h2 : get_next_output_filename [1] = 2 := by
    unfold get_next_output_filename
    rw [findFreeIndex]
    norm_num
    rw [findFreeIndex]
    norm_num
  exact ⟨fun existing => findFreeIndex_spec existing 1, h2, by rw [h2]; rfl⟩

/-- Witness for C6 at a concrete directory state. -/
theorem claim_C6_witness : 1 ∈ ([1] : List Nat) :=
  (claim_C6.1 [1]).2.2 1 (by decide) (by rw [claim_C6.2.1]; decide)

/-- When every detected id misses the marker map, the accumulation loop of
the PnP routine collects no correspondences at all. -/
theorem collectPnP_all_unknown (m : List (Nat × MarkerInfo α))
    (cornersL : List (List (α × α))) (ids : List Nat) (i : Nat)
    (h : ∀ mid ∈ ids, lookupMarker m mid = none) :
    collectPnP m cornersL ids i = .ok ([], []) := by
  induction ids generalizing i with
  | nil => rfl
  | cons a tl ih =>
    have ha : lookupMarker m a = none := h a (List.mem_cons_self a tl)
    unfold collectPnP
    rw [ha]
    exact ih _ (fun mid hm => h mid (List.mem_cons_of_mem _ hm))

/-- When every stored detected id misses the marker map, the PnP routine
returns no pose (and raises nothing). -/
theorem get_camera_position_unknown (ext : Ext α Frame) (s : State α Frame)
    (h : ∀ mid ∈ s.ids.getD [], lookupMarker s.marker_world_positions mid = none) :
    get_camera_position_from_multiple_markers ext s = .ok none := by
  unfold get_camera_position_from_multiple_markers
  split
  · rename_i cs ids hcor hid
    rw [hid] at h
    rw [collectPnP_all_unknown s.marker_world_positions cs ids 0 h]
    norm_num
  · rfl

theorem lookupMarker_zero (α : Type) [Field α] :
    ∃ i, lookupMarker (markerWorldPositions : List (Nat × MarkerInfo α)) 0 = some i :=
  ⟨_, rfl⟩

theorem arucoDetection_eval (ext : Ext α Frame) (s : State α Frame) (image : Frame)
    (hcur : s.current_frame = some image) (har : s.aruco_available = true)
    (hhl : s.headless = true) :
    arucoDetection ext s = detectBody ext image s := by
  unfold arucoDetection
  split
  · rename_i h1 h2
    rw [hcur] at h2
    cases h2
  · rename_i h1 h2
    rw [har] at h2
    cases h2
  · rename_i im h1 h2
    rw [hcur] at h1
    injection h1 with h1
    subst h1
    rw [hhl, if_pos rfl]

theorem detectBody_eval (ext : Ext α Frame) (image : Frame) (s0 : State α Frame)
    (hhl : s0.headless = true) (cs : List (List (α × α))) (idsOpt : Option (List Nat))
    (rej : Nat) (hdp : detectPipeline ext image = .ok (cs, idsOpt, rej)) :
    detectBody ext image s0
      = (match mainPhase ext { s0 with corners := some cs, ids := idsOpt } with
         | .error t => onDetectError t
         | .ok t => poseEstimation ext t) := by
  simp only [detectBody, hdp, hhl, visTry, if_true]
  try rfl

theorem mainPhase_success (ext : Ext α Frame) (s : State α Frame) (ids : List Nat)
    (hids : s.ids = some ids) (hlen : 0 < ids.length)
    (pos rvec tvec : α × α × α) (θ : α)
    (hp : get_camera_position_from_multiple_markers ext s = .ok (some (pos, rvec, tvec)))
    (ha : get_camera_angle_from_rtvec ext rvec tvec = .ok θ) :
    mainPhase ext s
      = .ok (if s.tcp && s.client_socket then
          convert_and_send ext (applyPose ext s pos θ) else applyPose ext s pos θ) := by
  simp only [mainPhase, hids, if_pos hlen, hp, ha, applyPose_tcp, applyPose_client]

theorem get_cam_pos_single_marker (ext : Ext α Frame) (s : State α Frame)
    (pts : List (α × α)) (hcor : s.corners = some [pts]) (hids : s.ids = some [0])
    (hmwp : s.marker_world_positions = markerWorldPositions)
    (rvec tvec : α × α × α)
    (hsolve : ∀ obj img, ext.solvePnPFn obj img = .ok (some (rvec, tvec)))
    (R : Fin 3 → Fin 3 → α) (hrod : ext.rodrigues rvec = .ok R) :
    get_camera_position_from_multiple_markers ext s
      = .ok (some (negRTt R tvec, rvec, tvec)) := by
  obtain ⟨info0, hinfo⟩ := lookupMarker_zero α
  simp only [get_camera_position_from_multiple_markers, hcor, hids, hmwp, collectPnP,
    hinfo, get_marker_corners_3d, hsolve, hrod, Except.map]
  norm_num

/-- Full evaluation of one `update_frame` step in a headless state when the
detector reports exactly one marker with id 0 and the solver and Rodrigues
oracles return fixed values. -/
theorem single_marker_step (ext : Ext α Frame) (s : State α Frame) (f : Frame)
    (hhl : s.headless = true) (har : s.aruco_available = true)
    (hmwp : s.marker_world_positions = markerWorldPositions)
    (pts : List (α × α))
    (hdet : detectPipeline ext f = .ok ([pts], some [0], 0))
    (rvec tvec : α × α × α)
    (hsolve : ∀ obj img, ext.solvePnPFn obj img = .ok (some (rvec, tvec)))
    (R : Fin 3 → Fin 3 → α) (hrod : ext.rodrigues rvec = .ok R) :
    (update_frame ext s (some f)).last_valid_pos
      = ((negRTt R tvec).1, (negRTt R tvec).2.1) ∧
    (update_frame ext s (some f)).last_valid_angle
      = -(ext.degreesFn (ext.atan2 (R 2 0) (R 2 1))) + 90 ∧
    (update_frame ext s (some f)).pose_data
      = s.pose_data ++ [sampleOf ext (negRTt R tvec)
          (-(ext.degreesFn (ext.atan2 (R 2 0) (R 2 1))) + 90)] ∧
    (update_frame ext s (some f)).sendAttempts
      = s.sendAttempts ++ (if s.tcp && s.client_socket then
          [msgOf ext (negRTt R tvec)
            (-(ext.degreesFn (ext.atan2 (R 2 0) (R 2 1))) + 90)] else []) ∧
    (update_frame ext s (some f)).client_socket
      = (if s.tcp && s.client_socket then
          (if ext.sendOk s.sendAttempts.length then s.client_socket else false)
        else s.client_socket) := by
  have h0 : update_frame ext s (some f)
      = arucoDetection ext { shiftFrames s with current_frame := some f } := rfl
  have h1 : arucoDetection ext { shiftFrames s with current_frame := some f }
      = detectBody ext f { shiftFrames s with current_frame := some f } := by
    refine arucoDetection_eval _ _ f rfl ?_ ?_ <;> simp [har, hhl]
  have h2 := detectBody_eval ext f { shiftFrames s with current_frame := some f }
    (by simp [hhl]) [pts] (some [0]) 0 hdet
  have hpos := get_cam_pos_single_marker ext
    { shiftFrames s with current_frame := some f, corners := some [pts], ids := some [0] }
    pts rfl rfl (by simp [hmwp]) rvec tvec hsolve R hrod
  have hang : get_camera_angle_from_rtvec ext rvec tvec
      = .ok (-(ext.degreesFn (ext.atan2 (R 2 0) (R 2 1))) + 90) := by
    simp only [get_camera_angle_from_rtvec, hrod]
  have h3 := mainPhase_success ext
    { shiftFrames s with current_frame := some f, corners := some [pts], ids := some [0] }
    [0] rfl (by decide) (negRTt R tvec) rvec tvec
    (-(ext.degreesFn (ext.atan2 (R 2 0) (R 2 1))) + 90) hpos hang
  rw [h0, h1, h2, h3]
  by_cases hc : (s.tcp && s.client_socket) = true <;>
    refine ⟨?_, ?_, ?_, ?_, ?_⟩ <;>
      simp [hc, sentMessage_applyPose, convert_and_send_client]

/-- Claim C1: when no detected marker id is a key of the marker map, the
multi-marker PnP call returns no pose (it cannot reach the solver), and the
frame step leaves the stored pose (`last_valid_pos` and `last_valid_angle`)
unchanged from its prior value. -/
theorem claim_C1 {α : Type} [Field α] {Frame : Type} :
    (∀ (ext : Ext α Frame) (s : State α Frame),
      (∀ mid ∈ s.ids.getD [], lookupMarker s.marker_world_positions mid = none) →
      get_camera_position_from_multiple_markers ext s = .ok none) ∧
    (∀ (ext : Ext α Frame) (s : State α Frame) (f : Frame)
      (cs : List (List (α × α))) (idsOpt : Option (List Nat)) (rej : Nat),
      detectPipeline ext f = .ok (cs, idsOpt, rej) →
      (∀ mid ∈ idsOpt.getD [], lookupMarker s.marker_world_positions mid = none) →
      (update_frame ext s (some f)).last_valid_pos = s.last_valid_pos ∧
      (update_frame ext s (some f)).last_valid_angle = s.last_valid_angle) := by
  refine ⟨fun ext s h => get_camera_position_unknown ext s h, ?_⟩
  intro ext s f cs idsOpt rej hdet hunk
  rcases update_frame_pose_cases ext s f with h |
    ⟨s₂, pos, rvec, tvec, θ, cs', idsOpt', rej', hc, hm, htcp, hdp, hdi, hdc, hp, ha, heq⟩
  · exact ⟨poseCore_pos h, poseCore_angle h⟩
  · exfalso
    rw [hdet] at hdp
    injection hdp with hdp
    injection hdp with h1 h23
    injection h23 with h2 h3
    subst h1
    subst h2
    have hu : ∀ mid ∈ s₂.ids.getD [],
        lookupMarker s₂.marker_world_positions mid = none := by
      rw [hdi, hm]
      exact hunk
    have hnone := get_camera_position_unknown ext s₂ hu
    rw [hnone] at hp
    injection hp with hp
    cases hp

/-- Witness for C1: the detector reports the single id 1000, which is not a
key of the 40-entry layout-1 marker map. -/
theorem claim_C1_witness :
    (update_frame extW1 (initState extW1 true false) (some ())).last_valid_pos
      = (initState extW1 true false).last_valid_pos ∧
    (update_frame extW1 (initState extW1 true false) (some ())).last_valid_angle
      = (initState extW1 true false).last_valid_angle :=
  claim_C1.2 extW1 (initState extW1 true false) () [ptsW] (some [1000]) 0 rfl
    (by decide)

/-- Witness for C7: a run with no client attempts no send, and a step whose
send fails discards the client handle. -/
theorem claim_C7_witness :
    ((run extW1 (initState extW1 true false) [some ()]).client_socket = false ∧
     (run extW1 (initState extW1 true false) [some ()]).sendAttempts
       = (initState extW1 true false).sendAttempts) ∧
    (update_frame extW2 (initState extW2 true true) (some ())).client_socket = false :=
  ⟨(claim_C7 extW1 (initState extW1 true false) [some ()] ()).1 rfl,
   (claim_C7 extW2 (initState extW2 true true) [] ()).2 rfl (by decide)⟩

/-- Claim C2: for every rotation vector, `get_camera_angle_from_rtvec` (with
the genuine `math` trigonometry) returns exactly
`-degrees(atan2(R[2,0], R[2,1])) + 90` for the Rodrigues matrix `R` of the
vector, with no wraparound normalization applied beyond that offset
(`specYaw` is the spec's formula, stated verbatim). -/
theorem claim_C2 {Frame : Type} (aAv acc : Bool)
    (cg eqz : Frame → Except Unit Frame)
    (dm : Frame → Except Unit (List (List (ℝ × ℝ)) × Option (List Nat) × Nat))
    (dd : Frame → List (List (ℝ × ℝ)) → List Nat → Except Unit Frame)
    (dr : Frame → Nat → Except Unit Frame)
    (pt : Frame → String → Except Unit Frame)
    (sp : List (ℝ × ℝ × ℝ) → List (ℝ × ℝ) →
      Except Unit (Option ((ℝ × ℝ × ℝ) × (ℝ × ℝ × ℝ))))
    (rg : ℝ × ℝ × ℝ → Except Unit (Fin 3 → Fin 3 → ℝ))
    (es : List (ℝ × ℝ) → ℝ → Except Unit ((ℝ × ℝ × ℝ) × (ℝ × ℝ × ℝ)))
    (da : Frame → (ℝ × ℝ × ℝ) → (ℝ × ℝ × ℝ) → Except Unit Frame)
    (sk : Nat → Bool) (rvec tvec : ℝ × ℝ × ℝ) (R : Fin 3 → Fin 3 → ℝ)
    (hrod : rg rvec = .ok R) :
    get_camera_angle_from_rtvec (mkRealExt aAv acc cg eqz dm dd dr pt sp rg es da sk)
      rvec tvec = .ok (specYaw R) := by
  simp only [get_camera_angle_from_rtvec, mkRealExt, hrod, specYaw]

/-- Witness for C2: concrete oracles whose Rodrigues output is the identity
matrix. -/
theorem claim_C2_witness :
    get_camera_angle_from_rtvec
      (@mkRealExt Unit true true (fun f => .ok f) (fun f => .ok f)
        (fun _ => .ok ([], none, 0)) (fun a _ _ => .ok a) (fun a _ => .ok a)
        (fun a _ => .ok a) (fun _ _ => .ok none) (fun _ => .ok (idMat3 ℝ))
        (fun _ _ => .error ()) (fun a _ _ => .ok a) (fun _ => true))
      (0, 0, 0) (0, 0, 0) = .ok (specYaw (idMat3 ℝ)) :=
  claim_C2 true true _ _ _ _ _ _ _ _ _ _ _ (0, 0, 0) (0, 0, 0) (idMat3 ℝ) rfl

/-- Round trip: parsing the written data rows reproduces the recorded
samples when row parsing inverts row formatting on those samples. -/
theorem parseCsv_map {α : Type} [Field α] (pa : String → Option α) (fmt : α → String) :
    ∀ l : List (α × α × α),
      (∀ r ∈ l, parseCsvRow pa (csvRow fmt r) = some r) →
      parseCsv pa (l.map (csvRow fmt)) = some l := by
  intro l
  induction l with
  | nil => intro _; rfl
  | cons r tl ih =>
    intro h
    have hr := h r (List.mem_cons_self r tl)
    have htl := ih (fun x hx => h x (List.mem_cons_of_mem _ hx))
    simp [parseCsv, hr, htl]

/-- Claim C5: `save_pose_data_to_csv` with zero recorded samples performs no
write; with `N > 0` samples it produces, in one write, the header row
`x,y,yaw` followed by the `N` samples in insertion order (`N + 1` rows), and
parsing the rows reproduces the recorded samples exactly. -/
theorem claim_C5 {α : Type} [Field α] {Frame : Type} (fmt : α → String)
    (pa : String → Option α) (existing : List Nat) (s : State α Frame) :
    (s.pose_data = [] → save_pose_data_to_csv fmt existing s = none) ∧
    (s.pose_data ≠ [] →
      ∃ content, save_pose_data_to_csv fmt existing s
          = some (get_next_output_filename existing, content) ∧
        content.length = s.pose_data.length + 1 ∧
        content.head? = some ["x", "y", "yaw"] ∧
        content.drop 1 = s.pose_data.map (csvRow fmt) ∧
        ((∀ r ∈ s.pose_data, parseCsvRow pa (csvRow fmt r) = some r) →
          parseCsv pa (content.drop 1) = some s.pose_data)) := by
  constructor
  · intro h
    simp [save_pose_data_to_csv, h]
  · intro h
    refine ⟨["x", "y", "yaw"] :: s.pose_data.map (csvRow fmt), ?_, ?_, rfl, rfl, ?_⟩
    · simp [save_pose_data_to_csv, List.isEmpty_iff, h]
    · simp
    · intro hinv
      simpa using parseCsv_map pa fmt s.pose_data hinv

/-- Witness for C5 with one recorded sample. -/
theorem claim_C5_witness :
    ∃ content, save_pose_data_to_csv fmtW [] stW5
        = some (get_next_output_filename [], content) ∧
      content.length = 2 ∧ parseCsv paW (content.drop 1) = some stW5.pose_data := by
  obtain ⟨content, hsave, hlen, hhead, hdrop, hrt⟩ :=
    (claim_C5 fmtW paW [] stW5).2 (by decide)
  exact ⟨content, hsave, by rw [hlen]; rfl, hrt (by decide)⟩

/-- Appending one element on the right preserves the suffix relation. -/
theorem suffix_append_one {β : Type} {l acc : List β} (h : l <:+ acc) (f : β) :
    l ++ [f] <:+ acc ++ [f] := by
  obtain ⟨pre, hpre⟩ := h
  exact ⟨pre, by rw [← List.append_assoc, hpre]⟩

/-- One push: the new frame becomes current and the held frames evolve by
the source's append-and-pop discipline. -/
theorem update_frame_held (ext : Ext α Frame) (s : State α Frame) (f : Frame)
    (hnum : s.num_frames = 2) :
    (update_frame ext s (some f)).num_frames = 2 ∧
    (update_frame ext s (some f)).current_frame = some f ∧
    heldFrames (update_frame ext s (some f))
      = (match s.current_frame with
         | none => s.frames
         | some cur => if 2 < (s.frames ++ [cur]).length then
             (s.frames ++ [cur]).tail else s.frames ++ [cur]) ++ [f] := by
  obtain ⟨s', heq, hc, hm, htcp, hcl, hn, hh, har, hids, hcor, hcurf, hfr⟩ :=
    update_frame_some_eq ext s f
  obtain ⟨g1, g2, g3⟩ := arucoDetection_frames ext s'
  rw [heq]
  refine ⟨g3.trans (hn.trans hnum), g2.trans hcurf, ?_⟩
  unfold heldFrames
  rw [g1, g2, hcurf]
  cases hcur : s.current_frame with
  | none =>
    rw [hfr.1 hcur]
    rfl
  | some cur =>
    rw [hfr.2 cur hcur, hnum]
    rfl

/-- Invariant run lemma for the frame history: starting from a state whose
held frames are the suffix of length `min |acc| 3` of the frames pushed so
far, the run keeps held frames equal to the most recent `min · 3` pushes. -/
theorem runFrames_invariant (ext : Ext α Frame) :
    ∀ (l : List Frame) (s : State α Frame) (acc : List Frame),
      s.num_frames = 2 →
      heldFrames s <:+ acc →
      (heldFrames s).length = min acc.length 3 →
      (s.current_frame = none → heldFrames s = []) →
      heldFrames (runFrames ext s l) <:+ (acc ++ l) ∧
      (heldFrames (runFrames ext s l)).length = min (acc ++ l).length 3 := by
  intro l
  induction l with
  | nil =>
    intro s acc h1 h2 h3 h4
    simpa using ⟨h2, h3⟩
  | cons f tl ih =>
    intro s acc h1 h2 h3 h4
    obtain ⟨hnum, hcur, hheld⟩ := update_frame_held ext s f h1
    have hstep : runFrames ext s (f :: tl) = runFrames ext (update_frame ext s (some f)) tl := rfl
    rw [hstep]
    have hne : heldFrames (update_frame ext s (some f)) <:+ (acc ++ [f]) ∧
        (heldFrames (update_frame ext s (some f))).length = min (acc ++ [f]).length 3 := by
      cases hcc : s.current_frame with
      | none =>
        have hempty := h4 hcc
        have hfr0 : s.frames = [] := by
          have : s.frames ++ s.current_frame.toList = [] := hempty
          rcases List.append_eq_nil.mp this with ⟨ha, _⟩
          exact ha
        have hacc0 : acc.length = 0 := by
          rw [hempty] at h3
          simp at h3
          omega
        rw [hheld, hcc, hfr0]
        constructor
        · exact List.suffix_append _ _
        · simp [hacc0]
      | some cur =>
        have hheq : s.frames ++ [cur] = heldFrames s := by
          unfold heldFrames
          rw [hcc]
          rfl
        rw [hheld, hcc]
        dsimp only
        rw [hheq]
        by_cases hbig : 2 < (heldFrames s).length
        · rw [if_pos hbig]
          constructor
          · exact suffix_append_one ((List.tail_suffix _).trans h2) f
          · simp only [List.length_append, List.length_tail, List.length_cons,
              List.length_nil]
            omega
        · rw [if_neg hbig]
          constructor
          · exact suffix_append_one h2 f
          · simp only [List.length_append, List.length_cons, List.length_nil]
            omega
    obtain ⟨hs1, hs2⟩ := hne
    have := ih (update_frame ext s (some f)) (acc ++ [f]) hnum hs1 hs2
      (fun hbad => by rw [hcur] at hbad; cases hbad)
    simpa [List.append_assoc] using this

/-- Claim C4 (amended): over any run of pushes from a fresh processor, the
held frames (history plus current) are exactly the most recent
`min K 3` pushed frames in push order — so the processor never holds more
than `capacity + 1 = 3` frames and eviction is FIFO (always the oldest held
frame) — but the first eviction happens on push `capacity + 2 = 4`, not
`capacity + 1`. -/
theorem claim_C4 (ext : Ext α Frame) (hl tc : Bool) (l : List Frame) :
    (heldFrames (runFrames ext (initState ext hl tc) l)).length ≤ 3 ∧
    heldFrames (runFrames ext (initState ext hl tc) l) <:+ l ∧
    (heldFrames (runFrames ext (initState ext hl tc) l)).length = min l.length 3 := by
  have h := runFrames_invariant ext l (initState ext hl tc) [] rfl
    List.nil_suffix rfl (fun _ => rfl)
  rcases h with ⟨h1, h2⟩
  rw [List.nil_append] at h1 h2
  exact ⟨by omega, h1, h2⟩

/-- Counterexample for C4 as stated: after exactly `capacity + 1 = 3` pushes
the oldest frame (frame 1) has not been evicted — all three frames are still
held. -/
theorem claim_C4_counterexample :
    heldFrames (runFrames extW4 (initState extW4 true false) [1, 2, 3]) = [1, 2, 3] ∧
    1 ∈ heldFrames (runFrames extW4 (initState extW4 true false) [1, 2, 3]) := by
  decide

/-- Claim C3 (amended): for every frame whose processing appends a pose
sample and sends a telemetry message, the serialized x and y equal the
sample's x and y exactly, while the serialized third component is the
sample's yaw converted to radians (`math.radians`), not the yaw in degrees. -/
theorem claim_C3 {α : Type} [LinearOrderedField α] {Frame : Type}
    (ext : Ext α Frame) (s : State α Frame) (f : Frame) (smp m : α × α × α)
    (hpose : (update_frame ext s (some f)).pose_data = s.pose_data ++ [smp])
    (hsend : (update_frame ext s (some f)).sendAttempts = s.sendAttempts ++ [m]) :
    m.1 = smp.1 ∧ m.2.1 = smp.2.1 ∧ m.2.2 = ext.radiansFn smp.2.2 := by
  rcases update_frame_pose_cases ext s f with h |
    ⟨s₂, pos, rvec, tvec, θ, cs, idsOpt, rej, hc, hm, htcp, hdp, hdi, hdc, hp, ha, heq⟩
  · rw [poseCore_pose_data h] at hpose
    exact absurd hpose (by simp)
  · rw [heq, poseEstimation_pose_data] at hpose
    rw [heq, poseEstimation_sendAttempts] at hsend
    by_cases hcond : (s.tcp && s.client_socket) = true
    · rw [if_pos hcond, convert_and_send_pose_data, applyPose_pose_data,
        poseCore_pose_data hc] at hpose
      rw [if_pos hcond, convert_and_send_sendAttempts, applyPose_sendAttempts,
        poseCore_sendAttempts hc, sentMessage_applyPose] at hsend
      have hsmp : smp = sampleOf ext pos θ :=
        (List.cons.injEq _ _ _ _).mp (List.append_cancel_left hpose.symm) |>.1
      have hmsg : m = msgOf ext pos θ :=
        (List.cons.injEq _ _ _ _).mp (List.append_cancel_left hsend.symm) |>.1
      subst hsmp
      subst hmsg
      refine ⟨?_, ?_, rfl⟩
      · show pos.1 * RATIO_MTS - 50 * ext.cosFn (ext.radiansFn θ)
          = (pos.1 - 0.1 * ext.cosFn (ext.radiansFn θ)) * RATIO_MTS
        have hr : (RATIO_MTS : α) = 500 := by
          norm_num [RATIO_MTS, SCREENHEIGHT, MAPHEIGHT]
        rw [hr]
        ring
      · show ((MAPHEIGHT : α) - pos.2.1) * RATIO_MTS + 50 * ext.sinFn (ext.radiansFn θ)
          = (SCREENHEIGHT : α) - (pos.2.1 - 0.1 * ext.sinFn (ext.radiansFn θ)) * RATIO_MTS
        have hr : (RATIO_MTS : α) = 500 := by
          norm_num [RATIO_MTS, SCREENHEIGHT, MAPHEIGHT]
        rw [hr]
        norm_num [MAPHEIGHT, SCREENHEIGHT]
        ring
    · rw [if_neg hcond, applyPose_sendAttempts, poseCore_sendAttempts hc] at hsend
      exact absurd hsend (by simp)


/-- Witness for the amended C3 at rational oracles: the appended sample is
`(0, 750, 90)` and the sent message is `(0, 750, 3/2)` (yaw in radians under
the witness's radians function `d / 60`). -/
theorem claim_C3_witness :
    ((0 : ℚ), (750 : ℚ), (3 / 2 : ℚ)).1 = ((0 : ℚ), (750 : ℚ), (90 : ℚ)).1 ∧
    ((0 : ℚ), (750 : ℚ), (3 / 2 : ℚ)).2.1 = ((0 : ℚ), (750 : ℚ), (90 : ℚ)).2.1 ∧
    ((0 : ℚ), (750 : ℚ), (3 / 2 : ℚ)).2.2
      = extW3.radiansFn (((0 : ℚ), (750 : ℚ), (90 : ℚ)).2.2) := by
  refine claim_C3 extW3 (initState extW3 true true) () (0, 750, 90) (0, 750, 3 / 2) ?_ ?_
  · have h := (single_marker_step extW3 (initState extW3 true true) () rfl rfl rfl
      ptsW rfl (0, 0, 0) (0, 0, 0) (fun _ _ => rfl) (fun _ _ => 0) rfl).2.2.1
    rw [h]
    norm_num [sampleOf, extW3, simpleExt, negRTt, RATIO_MTS, SCREENHEIGHT, MAPHEIGHT]
  · have h := (single_marker_step extW3 (initState extW3 true true) () rfl rfl rfl
      ptsW rfl (0, 0, 0) (0, 0, 0) (fun _ _ => rfl) (fun _ _ => 0) rfl).2.2.2.1
    rw [h]
    norm_num [msgOf, extW3, simpleExt, negRTt, RATIO_MTS, SCREENHEIGHT, MAPHEIGHT,
      initState]

/-- Counterexample for C3 as stated: with the genuine real trigonometry and
the identity rotation, the frame's appended sample stores yaw 90 degrees
while the serialized telemetry value is `pi/2` radians, so the serialized
yaw differs from the sample's yaw. -/
theorem claim_C3_counterexample :
    ¬ ((update_frame extC3 (initState extC3 true true) (some ())).sendAttempts.map
        (fun mm => mm.2.2)
      = (update_frame extC3 (initState extC3 true true) (some ())).pose_data.map
        (fun r => r.2.2)) := by
  have h := single_marker_step extC3 (initState extC3 true true) () rfl rfl rfl
    [(0, 0), (0, 0), (0, 0), (0, 0)] rfl (0, 0, 0) (0, 0, 0) (fun _ _ => rfl)
    (idMat3 ℝ) rfl
  rw [h.2.2.2.1, h.2.2.1]
  have hid0 : idMat3 ℝ 2 0 = 0 := by
    rw [idMat3]
    norm_num
    decide
  have hid1 : idMat3 ℝ 2 1 = 0 := by
    rw [idMat3]
    norm_num
    decide
  have hz : realAtan2 0 0 = 0 := by
    have h0 : (⟨0, 0⟩ : ℂ) = 0 := by simp [Complex.ext_iff]
    rw [realAtan2, h0, Complex.arg_zero]
  have hdeg : realDegrees 0 = 0 := by simp [realDegrees]
  rw [hid0, hid1]
  rw [show extC3.atan2 (0 : ℝ) 0 = 0 from hz]
  rw [show extC3.degreesFn (0 : ℝ) = 0 from hdeg]
  intro hbad
  simp only [initState, extC3, simpleExt, Bool.and_self, if_true, List.nil_append,
    List.map_cons, List.map_nil, msgOf, sampleOf, realRadians] at hbad
  rw [List.cons.injEq] at hbad
  have hbad2 := hbad.1
  ring_nf at hbad2
  have hpi := Real.pi_lt_d2
  linarith

/-- Inversion of the yaw extraction: any returned yaw has the form
`-degrees(atan2 a b) + 90`. -/
theorem get_camera_angle_inv (ext : Ext α Frame) (rvec tvec : α × α × α) (θ : α)
    (h : get_camera_angle_from_rtvec ext rvec tvec = .ok θ) :
    ∃ a b, θ = -(ext.degreesFn (ext.atan2 a b)) + 90 := by
  unfold get_camera_angle_from_rtvec at h
  cases hr : ext.rodrigues rvec with
  | error e =>
    rw [hr] at h
    cases h
  | ok R =>
    rw [hr] at h
    injection h with h
    exact ⟨R 2 0, R 2 1, h.symm⟩

/-- Range of the yaw formula under the genuine real trigonometry: the
complex argument lies in `(-pi, pi]`, so the stored heading lies in
`[-90, 270)`. -/
theorem realYaw_bounds (a b : ℝ) :
    -90 ≤ -(realDegrees (realAtan2 a b)) + 90 ∧
    -(realDegrees (realAtan2 a b)) + 90 < 270 := by
  have hpi := Real.pi_pos
  have h1 : Complex.arg ⟨b, a⟩ ≤ Real.pi := Complex.arg_le_pi _
  have h2 : -Real.pi < Complex.arg ⟨b, a⟩ := Complex.neg_pi_lt_arg _
  unfold realDegrees realAtan2
  constructor
  · have h3 : Complex.arg ⟨b, a⟩ * 180 / Real.pi ≤ 180 := by
      rw [div_le_iff₀ hpi]
      nlinarith
    linarith
  · have h3 : -180 < Complex.arg ⟨b, a⟩ * 180 / Real.pi := by
      rw [lt_div_iff₀ hpi]
      nlinarith
    linarith

/-- Claim C9 (amended): with the genuine real trigonometry (arbitrary
detector/solver/drawing oracles), in every state reachable from a fresh
processor by `update_frame` calls the stored heading lies in `[-90, 270)`
(degrees) — not in `[0, 360)` as stated. -/
theorem claim_C9 {Frame : Type} (aAv acc : Bool)
    (cg eqz : Frame → Except Unit Frame)
    (dm : Frame → Except Unit (List (List (ℝ × ℝ)) × Option (List Nat) × Nat))
    (dd : Frame → List (List (ℝ × ℝ)) → List Nat → Except Unit Frame)
    (dr : Frame → Nat → Except Unit Frame)
    (pt : Frame → String → Except Unit Frame)
    (sp : List (ℝ × ℝ × ℝ) → List (ℝ × ℝ) →
      Except Unit (Option ((ℝ × ℝ × ℝ) × (ℝ × ℝ × ℝ))))
    (rg : ℝ × ℝ × ℝ → Except Unit (Fin 3 → Fin 3 → ℝ))
    (es : List (ℝ × ℝ) → ℝ → Except Unit ((ℝ × ℝ × ℝ) × (ℝ × ℝ × ℝ)))
    (da : Frame → (ℝ × ℝ × ℝ) → (ℝ × ℝ × ℝ) → Except Unit Frame)
    (sk : Nat → Bool) (hl tc : Bool) (l : List (Option Frame)) :
    -90 ≤ (run (mkRealExt aAv acc cg eqz dm dd dr pt sp rg es da sk)
        (initState (mkRealExt aAv acc cg eqz dm dd dr pt sp rg es da sk) hl tc)
        l).last_valid_angle ∧
    (run (mkRealExt aAv acc cg eqz dm dd dr pt sp rg es da sk)
        (initState (mkRealExt aAv acc cg eqz dm dd dr pt sp rg es da sk) hl tc)
        l).last_valid_angle < 270 := by
  have step : ∀ (s : State ℝ Frame) (fo : Option Frame),
      (-90 ≤ s.last_valid_angle ∧ s.last_valid_angle < 270) →
      (-90 ≤ (update_frame (mkRealExt aAv acc cg eqz dm dd dr pt sp rg es da sk) s
          fo).last_valid_angle ∧
       (update_frame (mkRealExt aAv acc cg eqz dm dd dr pt sp rg es da sk) s
          fo).last_valid_angle < 270) := by
    intro s fo hs
    cases fo with
    | none => exact hs
    | some f =>
      rcases update_frame_pose_cases (mkRealExt aAv acc cg eqz dm dd dr pt sp rg es da sk)
          s f with h |
        ⟨s₂, pos, rvec, tvec, θ, cs, idsOpt, rej, hc, hm, htcp, hdp, hdi, hdc, hp, ha, heq⟩
      · rw [poseCore_angle h]
        exact hs
      · obtain ⟨a, b, hab⟩ := get_camera_angle_inv _ rvec tvec θ ha
        have hang : (update_frame (mkRealExt aAv acc cg eqz dm dd dr pt sp rg es da sk) s
            (some f)).last_valid_angle = θ := by
          rw [heq]
          split <;> simp
        rw [hang, hab]
        exact realYaw_bounds a b
  have main : ∀ (l : List (Option Frame)) (s : State ℝ Frame),
      (-90 ≤ s.last_valid_angle ∧ s.last_valid_angle < 270) →
      (-90 ≤ (run (mkRealExt aAv acc cg eqz dm dd dr pt sp rg es da sk) s
          l).last_valid_angle ∧
       (run (mkRealExt aAv acc cg eqz dm dd dr pt sp rg es da sk) s
          l).last_valid_angle < 270) := by
    intro l
    induction l with
    | nil => intro s hs; exact hs
    | cons fo tl ih => intro s hs; exact ih _ (step s fo hs)
  exact main l _ (by norm_num [initState])

/-- Counterexample for C9 as stated: with the genuine real trigonometry, a
frame whose solver output is the rotation vector `(-pi/2, 0, 0)` (Rodrigues
matrix `rotXneg90`, bottom row `(0, -1, 0)`) stores the heading -90, which
is outside `[0, 360)`. -/
theorem claim_C9_counterexample :
    (update_frame extC9 (initState extC9 true false) (some ())).last_valid_angle < 0 := by
  have h := single_marker_step extC9 (initState extC9 true false) () rfl rfl rfl
    [(0, 0), (0, 0), (0, 0), (0, 0)] rfl (-(Real.pi / 2), 0, 0) (0, 0, 0)
    (fun _ _ => rfl) (rotXneg90 ℝ) rfl
  rw [h.2.1]
  have hm0 : rotXneg90 ℝ 2 0 = 0 := by
    simp only [rotXneg90]
    rw [if_neg (by decide), if_neg (by decide), if_neg (by decide)]
  have hm1 : rotXneg90 ℝ 2 1 = -1 := by
    simp only [rotXneg90]
    rw [if_neg (by decide), if_neg (by decide), if_pos (by decide)]
  rw [hm0, hm1]
  have hz : realAtan2 0 (-1) = Real.pi := by
    have h0 : (⟨-1, 0⟩ : ℂ) = -1 := by simp [Complex.ext_iff]
    rw [realAtan2, h0, Complex.arg_neg_one]
  rw [show extC9.atan2 (0 : ℝ) (-1) = Real.pi from hz]
  have hdeg : realDegrees Real.pi = 180 := by
    rw [realDegrees]
    field_simp
  rw [show extC9.degreesFn Real.pi = 180 from hdeg]
  norm_num
